import Mathlib

/-
Shallow embedding of the paste lifecycle engine of `src/index.js`
(a paste-bin HTTP API backed by a SQL table `pastes`).

Modelling conventions:
  - The SQL table is a `List Paste` (`DB`); `SELECT ... WHERE id = x AND live`
    is `List.find?` (the id is the primary key, queries destructure the first
    row), `UPDATE ... WHERE id = x` maps the per-row update over the list, and
    `INSERT` appends.
  - Timestamps are `Int` milliseconds; `NOW()` is an explicit `now` parameter.
    `expires_at > NOW()` is `now < t`.
  - JS truthiness of the optional `password` request field (`!password`) is
    `truthy`: `undefined` and the empty string are falsy.  Likewise
    `expiresIn ? ... : null` is `numTruthy`: `undefined` and `0` are falsy.
  - Strings are compared and sliced by characters; `SUBSTRING(content,1,100)`
    is `List.take 100` on `String.data`, `LENGTH(content)` is `String.length`.
-/

deriving instance DecidableEq for Except

namespace PasteApi

/-- JS truthiness of an optional string request field: `undefined` and `""`
are falsy, every other string is truthy. -/
def truthy : Option String → Bool
  | none => false
  | some s => !(s == "")

/-- JS truthiness of the optional numeric `expiresIn` field: `undefined` and
`0` are falsy. -/
def numTruthy : Option Int → Bool
  | none => false
  | some n => !(n == 0)

/-- Modelled from the spec: the Cipher component (§4.2) is the external
`crypto-js` AES library, whose source is not part of this repository; only the
thin wrappers `encryptContent`/`decryptContent` are.  Per the spec the
ciphertext is a self-describing format embedding a random salt, invertible
only under the original passphrase.  The `keyTag` field abstracts the
salt-bound key check that makes decryption under any other passphrase fail. -/
structure Ciphertext where
  salt : Nat
  keyTag : String
  payload : String
deriving DecidableEq, Repr

/-- Content as stored in the `content` text column: plaintext, or the
serialised ciphertext produced by `encryptContent`. -/
inductive Stored where
  | plain (s : String)
  | cipher (c : Ciphertext)
deriving DecidableEq, Repr

/-- Modelled from the spec: `encrypt(plaintext, passphrase)` (§4.2), with the
library's internal random salt made an explicit argument. -/
def encryptContent (content : String) (password : String) (salt : Nat) : Ciphertext :=
  { salt := salt, keyTag := password, payload := content }

/-- Modelled from the spec: `decrypt(ciphertext, passphrase)` (§4.2) "fails
with DecryptionError when the passphrase is wrong or the ciphertext is
malformed".  A `.plain` value fed to decryption is a malformed ciphertext. -/
def decryptContent : Stored → String → Except Unit String
  | .plain _, _ => .error ()
  | .cipher c, password => if c.keyTag == password then .ok c.payload else .error ()

/-- One row of the `pastes` table (schema of `initializeSchema`). -/
structure Paste where
  id : String
  content : Stored
  language : Option String
  expiresAt : Option Int
  burnAfterRead : Bool
  isPrivate : Bool
  isEncrypted : Bool
  views : Nat
  createdAt : Int
  deleted : Bool
deriving DecidableEq, Repr

/-- The `pastes` table. -/
abbrev DB := List Paste

/-- The liveness filter shared by every read path:
`(expires_at IS NULL OR expires_at > NOW()) AND NOT deleted`. -/
def liveAt (p : Paste) (now : Int) : Bool :=
  !p.deleted && (match p.expiresAt with
    | none => true
    | some t => now < t)

/-- `SELECT * FROM pastes WHERE id = ${id} AND (expires_at IS NULL OR
expires_at > NOW()) AND NOT deleted`, destructured to the first row. -/
def findLive (db : DB) (id : String) (now : Int) : Option Paste :=
  db.find? (fun p => p.id == id && liveAt p now)

/-- The classified failures of the read and delete handlers:
404 Paste not found, 401 Password required, 401 Invalid password. -/
inductive ApiError where
  | notFound
  | passwordRequired
  | invalidPassword
deriving DecidableEq, Repr

/-- The request body of `POST /api/pastes`. -/
structure CreateReq where
  content : String
  expiresIn : Option Int
  language : Option String
  burnAfterRead : Bool
  isPrivate : Bool
  password : Option String
deriving DecidableEq, Repr

/-- The row inserted by `POST /api/pastes`: `isEncrypted = !!password`,
content encrypted iff a truthy password was supplied, `expires_at` =
`expiresIn ? Date.now() + expiresIn : null`, `views = 0`, `deleted` defaults
to `false`, `created_at` defaults to `CURRENT_TIMESTAMP`. -/
def createRow (req : CreateReq) (now : Int) (id : String) (salt : Nat) : Paste :=
  let isEncrypted := truthy req.password
  { id := id
    content :=
      if isEncrypted then .cipher (encryptContent req.content (req.password.getD "") salt)
      else .plain req.content
    language := req.language
    expiresAt := if numTruthy req.expiresIn then some (now + req.expiresIn.getD 0) else none
    burnAfterRead := req.burnAfterRead
    isPrivate := req.isPrivate
    isEncrypted := isEncrypted
    views := 0
    createdAt := now
    deleted := false }

/-- `POST /api/pastes`: insert the new row. -/
def createPaste (db : DB) (req : CreateReq) (now : Int) (id : String) (salt : Nat) : DB :=
  db ++ [createRow req now id salt]

/-- `UPDATE pastes SET views = views + 1 WHERE id = ${id}` — keyed on the id
alone, with no liveness filter. -/
def bumpViews (db : DB) (id : String) : DB :=
  db.map fun p => if p.id == id then { p with views := p.views + 1 } else p

/-- `UPDATE pastes SET deleted = true WHERE id = ${id}` — keyed on the id
alone. -/
def markDeleted (db : DB) (id : String) : DB :=
  db.map fun p => if p.id == id then { p with deleted := true } else p

/-- `GET /api/pastes/:id`: fetch the live row, gate on the password, decrypt,
increment `views`, soft-delete when `paste.burn_after_read && paste.views >= 1`
(note: `paste.views` is the value fetched BEFORE the increment), and respond
with the originally fetched row, its content replaced by the plaintext.
Returns the response and the table after the side effects. -/
def readById (db : DB) (id : String) (password : Option String) (now : Int) :
    Except ApiError Paste × DB :=
  match findLive db id now with
  | none => (.error .notFound, db)
  | some paste =>
    if paste.isEncrypted && !(truthy password) then
      (.error .passwordRequired, db)
    else
      let dec : Except Unit Stored :=
        if paste.isEncrypted then
          match decryptContent paste.content (password.getD "") with
          | .ok s => .ok (.plain s)
          | .error e => .error e
        else .ok paste.content
      match dec with
      | .error _ => (.error .invalidPassword, db)
      | .ok c =>
        let db1 : DB := bumpViews db id
        let db2 : DB :=
          if paste.burnAfterRead && decide (1 ≤ paste.views) then markDeleted db1 id
          else db1
        (.ok { paste with content := c }, db2)

/-- `SUBSTRING(content, 1, 100) || CASE WHEN LENGTH(content) > 100 THEN '...'
ELSE '' END`. -/
def truncate100 (s : String) : String :=
  String.mk (s.data.take 100) ++ (if s.length > 100 then "..." else "")

/-- The text the `content` column holds: a ciphertext is itself stored as
text.  Its serialisation never reaches a response: the encrypted branch of the
SQL `CASE` replaces it with the placeholder before any truncation. -/
def storedText : Stored → String
  | .plain s => s
  | .cipher c => c.payload

/-- The SQL `CASE WHEN is_encrypted THEN '[Encrypted Content]' ELSE
SUBSTRING(...) || ... END` projection shared by the preview and list
queries. -/
def sqlSummaryContent (isEncrypted : Bool) (content : Stored) : String :=
  if isEncrypted then "[Encrypted Content]" else truncate100 (storedText content)

/-- The row shape returned by `GET /api/preview/:id`. -/
structure Preview where
  id : String
  content : String
  language : Option String
  expiresAt : Option Int
  burnAfterRead : Bool
  isPrivate : Bool
  isEncrypted : Bool
  views : Nat
  createdAt : Int
deriving DecidableEq, Repr

/-- `GET /api/preview/:id`: same liveness filter as read-by-id, content
already summarised by the SQL `CASE`, no side effects. -/
def previewById (db : DB) (id : String) (now : Int) : Except ApiError Preview :=
  match findLive db id now with
  | none => .error .notFound
  | some p =>
    .ok { id := p.id
          content := sqlSummaryContent p.isEncrypted p.content
          language := p.language
          expiresAt := p.expiresAt
          burnAfterRead := p.burnAfterRead
          isPrivate := p.isPrivate
          isEncrypted := p.isEncrypted
          views := p.views
          createdAt := p.createdAt }

/-- The row shape selected by the `GET /api/pastes` list query.  Note the
SELECT list has no `is_encrypted` column. -/
structure ListRow where
  id : String
  content : String
  language : Option String
  createdAt : Int
  views : Nat
  isPrivate : Bool
  burnAfterRead : Bool
  expiresAt : Option Int
deriving DecidableEq, Repr

/-- The per-row SELECT projection of the list query. -/
def listRowOf (p : Paste) : ListRow :=
  { id := p.id
    content := sqlSummaryContent p.isEncrypted p.content
    language := p.language
    createdAt := p.createdAt
    views := p.views
    isPrivate := p.isPrivate
    burnAfterRead := p.burnAfterRead
    expiresAt := p.expiresAt }

/-- The list query: live rows, summarised content, `ORDER BY created_at DESC`,
`LIMIT 100`. -/
def listSqlRows (db : DB) (now : Int) : List ListRow :=
  (((db.filter (fun p => liveAt p now)).insertionSort
      (fun a b => b.createdAt ≤ a.createdAt)).take 100).map listRowOf

/-- The `safePastes` remap the JS applies to each SQL row:
`content: paste.is_encrypted ? '[Encrypted]' : paste.content +
(paste.content.length > 100 ? '...' : '')`.  The SELECT list of this query
has no `is_encrypted` column, so `paste.is_encrypted` reads an absent
property: `undefined`, which is falsy — the `'[Encrypted]'` branch is dead
and the else branch appends a second ellipsis to already-truncated content. -/
def safeRow (r : ListRow) : ListRow :=
  { r with content := r.content ++ (if r.content.length > 100 then "..." else "") }

/-- `GET /api/pastes`: the SQL rows passed through the `safePastes` remap. -/
def listPastes (db : DB) (now : Int) : List ListRow :=
  (listSqlRows db now).map safeRow

/-- `DELETE /api/pastes/:id`: existence check `WHERE id = ${id} AND NOT
deleted` (no expiry filter), then soft delete. -/
def deletePaste (db : DB) (id : String) : Except ApiError Unit × DB :=
  match db.find? (fun p => p.id == id && !p.deleted) with
  | none => (.error .notFound, db)
  | some _ => (.ok (), markDeleted db id)

/-- Iterate `n` reads-by-id, threading only the table state. -/
def readIter (n : Nat) (id : String) (password : Option String) (now : Int) (db : DB) : DB :=
  match n with
  | 0 => db
  | m + 1 => readIter m id password now (readById db id password now).2

/-- Pointwise relation used to state soft-delete monotonicity: positionally,
a row keeps its id and a deleted row stays deleted. -/
def deletedMono (a b : Paste) : Prop :=
  a.id = b.id ∧ (a.deleted = true → b.deleted = true)

/-- Concrete create request: a burn-after-read paste. -/
def c1req : CreateReq :=
  { content := "secret", expiresIn := none, language := some "plain",
    burnAfterRead := true, isPrivate := false, password := none }

/-- Table holding exactly the freshly created burn-after-read paste. -/
def c1db : DB := createPaste [] c1req 0 "ab12cd34" 0

/-- Concrete encrypted row: created with passphrase "q1". -/
def c2row : Paste :=
  createRow
    { content := "P", expiresIn := none, language := none,
      burnAfterRead := false, isPrivate := false, password := some "q1" }
    0 "cc00cc00" 7

/-- Concrete create request: a private plaintext paste of 150 characters. -/
def c3req : CreateReq :=
  { content := String.mk (List.replicate 150 'a'), expiresIn := none,
    language := some "plain", burnAfterRead := false, isPrivate := true,
    password := none }

/-- Concrete create request: a plain, never-expiring, non-burn paste. -/
def c6req : CreateReq :=
  { content := "hello", expiresIn := none, language := none,
    burnAfterRead := false, isPrivate := false, password := none }

/-- Concrete live plaintext row for the delete-path witness. -/
def c7row : Paste :=
  createRow
    { content := "bye", expiresIn := none, language := none,
      burnAfterRead := false, isPrivate := false, password := none }
    0 "dd00dd00" 0

/-- Concrete create request carrying an empty-string password. -/
def c9req : CreateReq :=
  { content := "x", expiresIn := none, language := none,
    burnAfterRead := false, isPrivate := false, password := some "" }

/-- Concrete encrypted row for the empty-password witness. -/
def c9row : Paste :=
  createRow
    { content := "S", expiresIn := none, language := none,
      burnAfterRead := false, isPrivate := false, password := some "pw" }
    0 "ee00ee00" 3

/-- Concrete plaintext row for the pre-increment-views witness. -/
def c10row : Paste :=
  createRow
    { content := "v", expiresIn := none, language := none,
      burnAfterRead := false, isPrivate := false, password := none }
    0 "ff00ff00" 0

/-! Helper lemmas: the four outcomes of the read-by-id handler. -/

theorem readById_of_findLive_none (db : DB) (id : String) (pw : Option String) (now : Int)
    (h : findLive db id now = none) :
    readById db id pw now = (.error .notFound, db) := by
  unfold readById
  rw [h]

theorem readById_password_required (db : DB) (id : String) (pw : Option String) (now : Int)
    (p : Paste) (hfind : findLive db id now = some p)
    (henc : p.isEncrypted = true) (hpw : truthy pw = false) :
    readById db id pw now = (.error .passwordRequired, db) := by
  unfold readById
  rw [hfind]
  simp [henc, hpw]

theorem readById_invalid_password (db : DB) (id : String) (pw : Option String) (now : Int)
    (p : Paste) (hfind : findLive db id now = some p)
    (henc : p.isEncrypted = true) (hpw : truthy pw = true)
    (hdec : decryptContent p.content (pw.getD "") = .error ()) :
    readById db id pw now = (.error .invalidPassword, db) := by
  unfold readById
  rw [hfind]
  simp [henc, hpw, hdec]

theorem readById_ok_plain (db : DB) (id : String) (pw : Option String) (now : Int)
    (p : Paste) (hfind : findLive db id now = some p) (henc : p.isEncrypted = false) :
    readById db id pw now =
      (.ok p,
       if p.burnAfterRead && decide (1 ≤ p.views) then markDeleted (bumpViews db id) id
       else bumpViews db id) := by
  unfold readById
  rw [hfind]
  simp [henc]
  rw [← henc]

theorem readById_ok_encrypted (db : DB) (id : String) (pw : Option String) (now : Int)
    (p : Paste) (s : String) (hfind : findLive db id now = some p)
    (henc : p.isEncrypted = true) (hpw : truthy pw = true)
    (hdec : decryptContent p.content (pw.getD "") = .ok s) :
    readById db id pw now =
      (.ok { p with content := .plain s },
       if p.burnAfterRead && decide (1 ≤ p.views) then markDeleted (bumpViews db id) id
       else bumpViews db id) := by
  unfold readById
  rw [hfind]
  simp [henc, hpw, hdec]

/-- Exhaustive case analysis of the read-by-id handler. -/
theorem readById_cases (db : DB) (id : String) (pw : Option String) (now : Int) :
    (findLive db id now = none ∧ readById db id pw now = (.error .notFound, db)) ∨
    (∃ p, findLive db id now = some p ∧ p.isEncrypted = true ∧ truthy pw = false ∧
      readById db id pw now = (.error .passwordRequired, db)) ∨
    (∃ p, findLive db id now = some p ∧ p.isEncrypted = true ∧ truthy pw = true ∧
      decryptContent p.content (pw.getD "") = .error () ∧
      readById db id pw now = (.error .invalidPassword, db)) ∨
    (∃ p c, findLive db id now = some p ∧
      readById db id pw now =
        (.ok { p with content := c },
         if p.burnAfterRead && decide (1 ≤ p.views) then markDeleted (bumpViews db id) id
         else bumpViews db id)) := by
  cases hfind : findLive db id now with
  | none => exact .inl ⟨rfl, readById_of_findLive_none db id pw now hfind⟩
  | some p =>
    by_cases henc : p.isEncrypted = true
    · by_cases hpw : truthy pw = true
      · cases hdec : decryptContent p.content (pw.getD "") with
        | error e =>
          refine .inr (.inr (.inl ⟨p, rfl, henc, hpw, ?_, ?_⟩))
          · cases e; exact hdec
          · exact readById_invalid_password db id pw now p hfind henc hpw (by cases e; exact hdec)
        | ok s =>
          exact .inr (.inr (.inr ⟨p, .plain s, rfl,
            readById_ok_encrypted db id pw now p s hfind henc hpw hdec⟩))
      · have hpw' : truthy pw = false := by simpa using hpw
        exact .inr (.inl ⟨p, rfl, henc, hpw',
          readById_password_required db id pw now p hfind henc hpw'⟩)
    · have henc' : p.isEncrypted = false := by simpa using henc
      exact .inr (.inr (.inr ⟨p, p.content, rfl,
        readById_ok_plain db id pw now p hfind henc'⟩))

/-- C1: the claim fails on the code — a paste created with burnAfterRead =
true is NOT soft-deleted by the first successful read: the handler compares
the pre-increment views value 0 (from the row fetched before the
`views = views + 1` update) against >= 1.  The first read succeeds, the row
survives with views = 1 and deleted = false, the second read-by-id ALSO
succeeds and returns the content, and only the third read observes the
deletion performed at the end of the second read. -/
theorem c1_burn_paste_readable_twice :
    (readById c1db "ab12cd34" none 0).1 = .ok (createRow c1req 0 "ab12cd34" 0) ∧
    readIter 1 "ab12cd34" none 0 c1db =
      [{ createRow c1req 0 "ab12cd34" 0 with views := 1 }] ∧
    (readById (readIter 1 "ab12cd34" none 0 c1db) "ab12cd34" none 0).1 =
      .ok { createRow c1req 0 "ab12cd34" 0 with views := 1 } ∧
    (readById (readIter 2 "ab12cd34" none 0 c1db) "ab12cd34" none 0).1 =
      .error .notFound := by
  decide

/-- C2: reading an encrypted paste whose stored content was produced with
passphrase Q1 under a different passphrase Q2 fails with InvalidPasswordError
and leaves the table unchanged — and, uniformly, every decryption failure on
the read path (wrong key or malformed ciphertext) yields that same
InvalidPasswordError with no state change. -/
theorem c2_wrong_password_rejected (db : DB) (id : String) (now : Int)
    (P Q1 Q2 : String) (salt : Nat) (p : Paste)
    (hfind : findLive db id now = some p)
    (henc : p.isEncrypted = true)
    (hcontent : p.content = .cipher (encryptContent P Q1 salt))
    (hne : Q1 ≠ Q2) (hQ2 : Q2 ≠ "") :
    readById db id (some Q2) now = (.error .invalidPassword, db) ∧
    (∀ (dbx : DB) (idx pwx : String) (nowx : Int) (q : Paste),
      findLive dbx idx nowx = some q → q.isEncrypted = true → pwx ≠ "" →
      decryptContent q.content pwx = .error () →
      readById dbx idx (some pwx) nowx = (.error .invalidPassword, dbx)) := by
  have huniform : ∀ (dbx : DB) (idx pwx : String) (nowx : Int) (q : Paste),
      findLive dbx idx nowx = some q → q.isEncrypted = true → pwx ≠ "" →
      decryptContent q.content pwx = .error () →
      readById dbx idx (some pwx) nowx = (.error .invalidPassword, dbx) := by
    intro dbx idx pwx nowx q hf he hp hd
    have hpw : truthy (some pwx) = true := by simp [truthy, hp]
    exact readById_invalid_password dbx idx (some pwx) nowx q hf he hpw hd
  refine ⟨huniform db id Q2 now p hfind henc hQ2 ?_, huniform⟩
  rw [hcontent]
  simp [decryptContent, encryptContent, hne]

/-- Witness for C2: the wrong-password rejection at a concrete encrypted
paste, created with passphrase "q1" and read with passphrase "q2". -/
theorem c2_wrong_password_rejected_witness :
    readById [c2row] "cc00cc00" (some "q2") 0 = (.error .invalidPassword, [c2row]) :=
  (c2_wrong_password_rejected [c2row] "cc00cc00" 0 "P" "q1" "q2" 7 c2row
    (by decide) (by decide) (by decide) (by decide) (by decide)).1

set_option maxRecDepth 10000 in
/-- C3: the claim fails on the code — in the list operation a non-encrypted
content of length 150 is shown as its first 100 characters followed by TWO
ellipsis markers, not one: the SQL query already truncates to 100 characters
plus '...', and the safePastes remap appends a second '...' because the
summary string's length 103 exceeds 100.  (The isPrivate flag does surface as
true; it is the single-trailing-ellipsis clause that the code violates.) -/
theorem c3_list_double_ellipsis :
    (listPastes (createPaste [] c3req 0 "id1" 0) 0).map (fun r => r.content) =
      [String.mk (List.replicate 100 'a') ++ "......"] ∧
    (listPastes (createPaste [] c3req 0 "id1" 0) 0).map (fun r => r.isPrivate) =
      [true] ∧
    String.mk (List.replicate 100 'a') ++ "......" ≠
      truncate100 (String.mk (List.replicate 150 'a')) := by
  decide

/-- C9: an empty-string passphrase is treated as no passphrase at the public
interface: create with password = "" stores the content in plaintext with
isEncrypted = false, and read-by-id of an encrypted paste with password = ""
fails with PasswordRequiredError, with no state change and no decryption
attempt. -/
theorem c9_empty_password (req : CreateReq) (now : Int) (id : String) (salt : Nat)
    (db : DB) (rid : String) (rnow : Int) (p : Paste)
    (hreq : req.password = some "")
    (hfind : findLive db rid rnow = some p) (henc : p.isEncrypted = true) :
    (createRow req now id salt).isEncrypted = false ∧
    (createRow req now id salt).content = .plain req.content ∧
    readById db rid (some "") rnow = (.error .passwordRequired, db) := by
  have ht : truthy req.password = false := by rw [hreq]; rfl
  refine ⟨by simp [createRow, ht], by simp [createRow, ht], ?_⟩
  exact readById_password_required db rid (some "") rnow p hfind henc rfl

/-- Witness for C9: a concrete create request carrying password = "" and a
concrete encrypted row read with password = "". -/
theorem c9_empty_password_witness :
    (createRow c9req 1 "aa" 0).isEncrypted = false ∧
    (createRow c9req 1 "aa" 0).content = .plain "x" ∧
    readById [c9row] "ee00ee00" (some "") 0 = (.error .passwordRequired, [c9row]) :=
  c9_empty_password c9req 1 "aa" 0 [c9row] "ee00ee00" 0 c9row rfl
    (by decide) (by decide)

/-- C10: on every successful read-by-id the response is the row as fetched
before the view increment: its views field equals the stored counter prior to
this read's own increment, and every field besides content is the stored
one. -/
theorem c10_views_pre_increment (db : DB) (id : String) (pw : Option String) (now : Int)
    (p q : Paste) (hfind : findLive db id now = some p)
    (hok : (readById db id pw now).1 = .ok q) :
    q.views = p.views ∧ ∃ c, q = { p with content := c } := by
  rcases readById_cases db id pw now with
    ⟨hf, heq⟩ | ⟨r, hf, _, _, heq⟩ | ⟨r, hf, _, _, _, heq⟩ | ⟨r, c, hf, heq⟩
  · rw [hf] at hfind; cases hfind
  · rw [heq] at hok; cases hok
  · rw [heq] at hok; cases hok
  · rw [hfind] at hf
    injection hf with hrp
    subst hrp
    rw [heq] at hok
    have hq : { p with content := c } = q := by
      simpa using hok
    subst hq
    exact ⟨rfl, ⟨c, rfl⟩⟩

/-- Witness for C10: the first successful read of a fresh paste returns the
row with views = 0 as reported views. -/
theorem c10_views_pre_increment_witness :
    ((readById [c10row] "ff00ff00" none 0).1 = .ok c10row ∧ c10row.views = 0) ∧
    (c10row.views = c10row.views ∧ ∃ c, c10row = { c10row with content := c }) :=
  ⟨by decide,
   c10_views_pre_increment [c10row] "ff00ff00" none 0 c10row c10row
     (by decide) (by decide)⟩

/-- C8: for every plaintext P and passphrase Q (and any internal salt),
decrypt(encrypt(P, Q), Q) = P — the cipher round-trips under the same
passphrase. -/
theorem c8_cipher_roundtrip (P Q : String) (salt : Nat) :
    decryptContent (.cipher (encryptContent P Q salt)) Q = .ok P := by
  simp [decryptContent, encryptContent]

/-- C4: the failure branches of read-by-id are mutually exclusive and checked
in order — NotFoundError exactly when no live row matches the id;
PasswordRequiredError exactly when a live row matches, it is encrypted and the
supplied password is JS-falsy; InvalidPasswordError exactly when a live row
matches, it is encrypted, a truthy password was supplied and decryption
fails — and no failure branch changes the stored table (no view increment, no
deletion). -/
theorem c4_failure_branches (db : DB) (id : String) (pw : Option String) (now : Int)
    (e : ApiError) (h : (readById db id pw now).1 = .error e) :
    (readById db id pw now).2 = db ∧
    (e = .notFound ↔ findLive db id now = none) ∧
    (e = .passwordRequired ↔
      ∃ p, findLive db id now = some p ∧ p.isEncrypted = true ∧ truthy pw = false) ∧
    (e = .invalidPassword ↔
      ∃ p, findLive db id now = some p ∧ p.isEncrypted = true ∧ truthy pw = true ∧
        decryptContent p.content (pw.getD "") = .error ()) := by
  rcases readById_cases db id pw now with
    ⟨hf, heq⟩ | ⟨p, hf, henc, hpw, heq⟩ | ⟨p, hf, henc, hpw, hdec, heq⟩ | ⟨p, c, hf, heq⟩
  · rw [heq] at h
    simp only [Except.error.injEq] at h
    subst h
    exact ⟨by rw [heq], by simp [hf], by simp [hf], by simp [hf]⟩
  · rw [heq] at h
    simp only [Except.error.injEq] at h
    subst h
    refine ⟨by rw [heq], by simp [hf], ?_, ?_⟩
    · simp only [true_iff]
      exact ⟨p, hf, henc, hpw⟩
    · simp [hf, henc, hpw]
  · rw [heq] at h
    simp only [Except.error.injEq] at h
    subst h
    refine ⟨by rw [heq], by simp [hf], ?_, ?_⟩
    · simp [hf, henc, hpw]
    · simp only [true_iff]
      exact ⟨p, hf, henc, hpw, hdec⟩
  · rw [heq] at h
    simp at h

/-- Witness for C4: the failing read of an absent id leaves the (empty) table
unchanged. -/
theorem c4_failure_branches_witness :
    (readById [] "zz" none 0).2 = ([] : DB) :=
  (c4_failure_branches [] "zz" none 0 .notFound (by decide)).1

/-- Helper: the live-row lookup finds nothing iff no row with the id is
live. -/
theorem findLive_eq_none_iff (db : DB) (id : String) (now : Int) :
    findLive db id now = none ↔ ¬ ∃ p ∈ db, p.id = id ∧ liveAt p now = true := by
  rw [findLive, List.find?_eq_none]
  constructor
  · rintro h ⟨p, hp, hid, hl⟩
    exact h p hp (by simp [hid, hl])
  · intro h p hp hpred
    exact h ⟨p, hp, by simpa using hpred⟩

/-- C5: a paste is visible to each read path iff it is live (deleted = false
and expiresAt null or strictly in the future); an id that is absent, expired
or already deleted yields the same NotFoundError from read-by-id and preview,
and is absent from the listing, whose rows all come from live pastes — and
every live paste is listed whenever at most 100 rows are live (the reference
cap). -/
theorem c5_live_visibility (db : DB) (id : String) (pw : Option String) (now : Int) :
    ((readById db id pw now).1 = .error .notFound ↔
      ¬ ∃ p ∈ db, p.id = id ∧ liveAt p now = true) ∧
    ((∃ r, previewById db id now = .ok r) ↔
      ∃ p ∈ db, p.id = id ∧ liveAt p now = true) ∧
    (previewById db id now = .error .notFound ↔
      ¬ ∃ p ∈ db, p.id = id ∧ liveAt p now = true) ∧
    (∀ r ∈ listPastes db now, ∃ p ∈ db, p.id = r.id ∧ liveAt p now = true) ∧
    ((db.filter (fun p => liveAt p now)).length ≤ 100 →
      ∀ p ∈ db, liveAt p now = true → ∃ r ∈ listPastes db now, r.id = p.id) ∧
    (∀ p : Paste, liveAt p now = true ↔
      (p.deleted = false ∧ ∀ t, p.expiresAt = some t → now < t)) := by
  refine ⟨?_, ?_, ?_, ?_, ?_, ?_⟩
  · rw [← findLive_eq_none_iff db id now]
    rcases readById_cases db id pw now with
      ⟨hf, heq⟩ | ⟨p, hf, _, _, heq⟩ | ⟨p, hf, _, _, _, heq⟩ | ⟨p, c, hf, heq⟩ <;>
      rw [heq] <;> simp [hf]
  · rw [← not_iff_not, not_exists, ← findLive_eq_none_iff db id now]
    cases hf : findLive db id now with
    | none => simp [previewById, hf]
    | some p => simp [previewById, hf]
  · rw [← findLive_eq_none_iff db id now]
    cases hf : findLive db id now with
    | none => simp [previewById, hf]
    | some p => simp [previewById, hf]
  · intro r hr
    obtain ⟨row, hrow, hfr⟩ := List.mem_map.mp hr
    obtain ⟨p, hp, hpr⟩ := List.mem_map.mp hrow
    have hp2 : p ∈ (db.filter (fun q => liveAt q now)).insertionSort
        (fun a b => b.createdAt ≤ a.createdAt) := List.mem_of_mem_take hp
    have hp3 : p ∈ db.filter (fun q => liveAt q now) :=
      (List.mem_insertionSort _).mp hp2
    have hp4 := List.mem_filter.mp hp3
    refine ⟨p, hp4.1, ?_, hp4.2⟩
    subst hfr
    subst hpr
    rfl
  · intro hlen p hp hlive
    have hmemf : p ∈ db.filter (fun q => liveAt q now) := List.mem_filter.mpr ⟨hp, hlive⟩
    have hsortlen : ((db.filter (fun q => liveAt q now)).insertionSort
        (fun a b => b.createdAt ≤ a.createdAt)).length ≤ 100 := by
      rw [List.length_insertionSort]
      exact hlen
    have htake : ((db.filter (fun q => liveAt q now)).insertionSort
        (fun a b => b.createdAt ≤ a.createdAt)).take 100 =
        (db.filter (fun q => liveAt q now)).insertionSort
          (fun a b => b.createdAt ≤ a.createdAt) :=
      List.take_of_length_le hsortlen
    have hmems : p ∈ (db.filter (fun q => liveAt q now)).insertionSort
        (fun a b => b.createdAt ≤ a.createdAt) :=
      (List.mem_insertionSort _).mpr hmemf
    refine ⟨safeRow (listRowOf p), ?_, rfl⟩
    unfold listPastes listSqlRows
    rw [htake]
    exact List.mem_map.mpr ⟨listRowOf p, List.mem_map.mpr ⟨p, hmems, rfl⟩, rfl⟩
  · intro p
    unfold liveAt
    cases hx : p.expiresAt with
    | none => simp
    | some t => simp [hx]

/-- Witness for C5: an absent id is reported as NotFoundError by
read-by-id. -/
theorem c5_live_visibility_witness :
    (readById [] "zz9" none 0).1 = .error .notFound :=
  (c5_live_visibility [] "zz9" none 0).1.mpr (by simp)

/-! Helper lemmas for the view-counting claim: a non-burn plaintext
never-expiring singleton table steps views by one per read. -/

theorem findLive_singleton_self (p : Paste) (i : String) (now : Int)
    (hid : p.id = i) (hd : p.deleted = false) (hx : p.expiresAt = none) :
    findLive [p] i now = some p := by
  subst hid
  simp [findLive, liveAt, hd, hx]

theorem readById_plain_singleton (p : Paste) (i : String) (pw : Option String) (now : Int)
    (hid : p.id = i) (hb : p.burnAfterRead = false) (he : p.isEncrypted = false)
    (hd : p.deleted = false) (hx : p.expiresAt = none) :
    readById [p] i pw now = (.ok p, [{ p with views := p.views + 1 }]) := by
  rw [readById_ok_plain [p] i pw now p (findLive_singleton_self p i now hid hd hx) he]
  subst hid
  simp [hb, bumpViews]

theorem readIter_plain_singleton (k : Nat) :
    ∀ (p : Paste) (i : String) (pw : Option String) (now : Int),
    p.id = i → p.burnAfterRead = false → p.isEncrypted = false →
    p.deleted = false → p.expiresAt = none →
    readIter k i pw now [p] = [{ p with views := p.views + k }] := by
  induction k with
  | zero =>
    intro p i pw now hid hb he hd hx
    simp [readIter]
  | succ k ih =>
    intro p i pw now hid hb he hd hx
    rw [readIter, readById_plain_singleton p i pw now hid hb he hd hx]
    have h2 := ih { p with views := p.views + 1 } i pw now hid hb he hd hx
    rw [h2]
    have hv : p.views + 1 + k = p.views + (k + 1) := by omega
    simp [hv]

/-- C6: a paste created with burnAfterRead = false starts with a stored views
counter of 0; each of the first k reads-by-id succeeds (returning the row
with the pre-read counter), after n successful reads the stored counter
equals exactly n; and the delete operation never changes any views value. -/
theorem c6_view_monotonicity (req : CreateReq) (now readNow : Int) (id : String)
    (salt : Nat) (n : Nat)
    (hb : req.burnAfterRead = false) (hpw : truthy req.password = false)
    (hexp : numTruthy req.expiresIn = false) :
    (createRow req now id salt).views = 0 ∧
    (∀ k : Nat,
      (readById (readIter k id none readNow (createPaste [] req now id salt))
          id none readNow).1 =
        .ok { createRow req now id salt with views := k }) ∧
    readIter n id none readNow (createPaste [] req now id salt) =
      [{ createRow req now id salt with views := n }] ∧
    (∀ (dbx : DB) (i : String),
      ((deletePaste dbx i).2).map (fun p => p.views) = dbx.map (fun p => p.views)) := by
  have hrow_b : (createRow req now id salt).burnAfterRead = false := hb
  have hrow_e : (createRow req now id salt).isEncrypted = false := hpw
  have hrow_d : (createRow req now id salt).deleted = false := rfl
  have hrow_x : (createRow req now id salt).expiresAt = none := by
    simp [createRow, hexp]
  have hrow_v : (createRow req now id salt).views = 0 := rfl
  have hdb : createPaste [] req now id salt = [createRow req now id salt] := rfl
  refine ⟨rfl, ?_, ?_, ?_⟩
  · intro k
    rw [hdb, readIter_plain_singleton k (createRow req now id salt) id none readNow
      rfl hrow_b hrow_e hrow_d hrow_x]
    rw [readById_plain_singleton { createRow req now id salt with views :=
        (createRow req now id salt).views + k } id none readNow
      rfl hrow_b hrow_e hrow_d hrow_x]
    rw [hrow_v]
    simp
  · rw [hdb, readIter_plain_singleton n (createRow req now id salt) id none readNow
      rfl hrow_b hrow_e hrow_d hrow_x]
    rw [hrow_v]
    simp
  · intro dbx i
    unfold deletePaste
    cases hf : dbx.find? (fun q => q.id == i && !q.deleted) with
    | none => rfl
    | some q =>
      simp only [markDeleted, List.map_map]
      apply List.map_congr_left
      intro a _
      by_cases hc : a.id == i <;> simp [Function.comp, hc]

/-- Witness for C6: three reads of a concrete fresh non-burn paste leave its
stored views counter at exactly 3. -/
theorem c6_view_monotonicity_witness :
    readIter 3 "dd" none 5 (createPaste [] c6req 5 "dd" 0) =
      [{ createRow c6req 5 "dd" 0 with views := 3 }] :=
  (c6_view_monotonicity c6req 5 5 "dd" 0 3 (by decide) (by decide) (by decide)).2.2.1

/-! Helper lemmas for soft-delete monotonicity. -/

theorem forall₂_map_self (R : Paste → Paste → Prop) (f : Paste → Paste) :
    ∀ (l : List Paste), (∀ a ∈ l, R a (f a)) → List.Forall₂ R l (l.map f)
  | [], _ => List.Forall₂.nil
  | a :: l, h =>
    List.Forall₂.cons (h a (List.mem_cons_self a l))
      (forall₂_map_self R f l fun b hb => h b (List.mem_cons_of_mem a hb))

theorem deletedMono_refl (l : DB) : List.Forall₂ deletedMono l l :=
  List.forall₂_same.mpr fun _ _ => ⟨rfl, fun hh => hh⟩

theorem deletedMono_mark (db : DB) (i : String) :
    List.Forall₂ deletedMono db (markDeleted db i) := by
  unfold markDeleted
  exact forall₂_map_self _ _ db fun a _ => by
    by_cases hc : a.id == i <;> simp [deletedMono, hc]

theorem deletedMono_bump (db : DB) (i : String) :
    List.Forall₂ deletedMono db (bumpViews db i) := by
  unfold bumpViews
  exact forall₂_map_self _ _ db fun a _ => by
    by_cases hc : a.id == i <;> simp [deletedMono, hc]

theorem deletedMono_mark_bump (db : DB) (i : String) :
    List.Forall₂ deletedMono db (markDeleted (bumpViews db i) i) := by
  unfold markDeleted bumpViews
  rw [List.map_map]
  exact forall₂_map_self _ _ db fun a _ => by
    by_cases hc : a.id == i <;> simp [deletedMono, Function.comp, hc]

theorem deletedMono_readById (db : DB) (i : String) (pw : Option String) (t : Int) :
    List.Forall₂ deletedMono db (readById db i pw t).2 := by
  rcases readById_cases db i pw t with
    ⟨_, heq⟩ | ⟨p, _, _, _, heq⟩ | ⟨p, _, _, _, _, heq⟩ | ⟨p, c, _, heq⟩
  · rw [heq]; exact deletedMono_refl db
  · rw [heq]; exact deletedMono_refl db
  · rw [heq]; exact deletedMono_refl db
  · rw [heq]
    by_cases hc : (p.burnAfterRead && decide (1 ≤ p.views)) = true
    · simp only [hc, if_true]
      exact deletedMono_mark_bump db i
    · simp only [hc, if_false, Bool.false_eq_true]
      exact deletedMono_bump db i

/-- C7: deleting an existing non-deleted paste succeeds and marks every row
holding that id as deleted; a second delete of the same id then fails with
NotFoundError, not success; and across the mutating operations (delete and
read-by-id) rows keep their ids and deleted never transitions back from true
to false. -/
theorem c7_delete_idempotent (db : DB) (id : String)
    (h : ∃ p ∈ db, p.id = id ∧ p.deleted = false) :
    (deletePaste db id).1 = .ok () ∧
    (∀ q ∈ (deletePaste db id).2, q.id = id → q.deleted = true) ∧
    (deletePaste (deletePaste db id).2 id).1 = .error .notFound ∧
    (∀ (dbx : DB) (i : String), List.Forall₂ deletedMono dbx (deletePaste dbx i).2) ∧
    (∀ (dbx : DB) (i : String) (pwx : Option String) (tx : Int),
      List.Forall₂ deletedMono dbx (readById dbx i pwx tx).2) := by
  obtain ⟨p, hmem, hid, hdel⟩ := h
  have hsome : (db.find? (fun q => q.id == id && !q.deleted)).isSome := by
    rw [List.find?_isSome]
    exact ⟨p, hmem, by simp [hid, hdel]⟩
  obtain ⟨q, hq⟩ := Option.isSome_iff_exists.mp hsome
  have hDel : deletePaste db id = (.ok (), markDeleted db id) := by
    unfold deletePaste
    rw [hq]
  have hAllDeleted : ∀ r ∈ markDeleted db id, r.id = id → r.deleted = true := by
    intro r hr hrid
    obtain ⟨a, _, hfa⟩ := List.mem_map.mp hr
    by_cases hc : a.id == id
    · rw [if_pos hc] at hfa
      rw [← hfa]
    · rw [if_neg hc] at hfa
      subst hfa
      exact absurd (by simp [hrid]) hc
  refine ⟨by rw [hDel], ?_, ?_, ?_, ?_⟩
  · rw [hDel]
    exact hAllDeleted
  · rw [hDel]
    unfold deletePaste
    have hnone : (markDeleted db id).find? (fun r => r.id == id && !r.deleted) = none := by
      rw [List.find?_eq_none]
      intro x hx
      by_cases hcx : x.id = id
      · have := hAllDeleted x hx hcx
        simp [this]
      · simp [hcx]
    rw [hnone]
  · intro dbx i
    unfold deletePaste
    cases hf : dbx.find? (fun r => r.id == i && !r.deleted) with
    | none => exact deletedMono_refl dbx
    | some r => exact deletedMono_mark dbx i
  · intro dbx i pwx tx
    exact deletedMono_readById dbx i pwx tx

/-- Witness for C7: deleting a concrete live paste succeeds, and deleting it
again reports NotFoundError. -/
theorem c7_delete_idempotent_witness :
    (deletePaste [c7row] "dd00dd00").1 = .ok () ∧
    (deletePaste (deletePaste [c7row] "dd00dd00").2 "dd00dd00").1 = .error .notFound :=
  ⟨(c7_delete_idempotent [c7row] "dd00dd00" (by decide)).1,
   (c7_delete_idempotent [c7row] "dd00dd00" (by decide)).2.2.1⟩

end PasteApi
